import Mathlib

/-!
Shallow embedding of the namada auto-compound rewards daemon
(`src/opt.rs`, `src/state.rs`, `src/utils.rs`, `src/main.rs`).

Floating-point (`f64`) quantities are idealized as rationals (`ℚ`);
`u64` quantities are naturals with explicit wrap-around (`% 2^64`)
where the source's arithmetic can overflow or underflow.
-/

namespace NamadaAC

/-! ## `src/opt.rs` -/

/-- The body of the `for` loop in `calculate_compound_balance`: each round
applies `balance = balance * (1.0 + effective_rate) - fee` and returns `0.0`
immediately if the balance drops to `<= 0.0`. -/
def compoundLoop (rate fee : ℚ) : ℕ → ℚ → ℚ
  | 0, balance => balance
  | n + 1, balance =>
    if balance * (1 + rate) - fee ≤ 0 then 0
    else compoundLoop rate fee n (balance * (1 + rate) - fee)

/-- `calculate_compound_balance` from `src/opt.rs`: `effective_rate = apr / frequency`,
then `(frequency * time_in_years) as usize` rounds of the compounding loop starting
from `principal` (the `as usize` cast truncates toward zero and saturates below at 0,
which is `Nat.floor` on the nonnegative rationals). -/
def calculate_compound_balance (principal apr fee frequency time_in_years : ℚ) : ℚ :=
  let effective_rate := apr / frequency
  compoundLoop effective_rate fee ⌊frequency * time_in_years⌋₊ principal

/-- The `CompoundingOptimization` problem struct from `src/opt.rs`. -/
structure CompoundingOptimization where
  principal : ℚ
  apr : ℚ
  fee : ℚ
  time_in_years : ℚ

/-- The value of `f64::MAX`, exactly: `(2 - 2^-52) * 2^1023`. -/
def f64_MAX : ℚ := 2 ^ 1024 - 2 ^ 971

/-- The `cost` method of `CompoundingOptimization` (`src/opt.rs`): candidates with
`frequency > 24.0 * 365.0` get cost `f64::MAX`; otherwise the one-period balance is
simulated and a non-positive balance also gets `f64::MAX`; otherwise the cost is the
negated balance. The `Result` wrapper is dropped since the source always returns `Ok`. -/
def CompoundingOptimization.cost (self : CompoundingOptimization) (frequency : ℚ) : ℚ :=
  if 24 * 365 < frequency then f64_MAX
  else
    let balance := calculate_compound_balance self.principal self.apr self.fee
      frequency self.time_in_years
    if balance ≤ 0 then f64_MAX else -balance

/-- `OptimizationResult` from `src/opt.rs`; `optimal_frequency` is a `u64`
(documented "in hours" in the source, produced by an `as u64` cast). -/
structure OptimizationResult where
  max_balance : ℚ
  optimal_frequency : ℕ

/-- `OptimizationResult::seconds_between_compunding`:
`365.0 * 24.0 * 60.0 * 60.0 / optimal_frequency as f64`. -/
def OptimizationResult.seconds_between_compunding (self : OptimizationResult) : ℚ :=
  365 * 24 * 60 * 60 / (self.optimal_frequency : ℚ)

/-! ## `src/state.rs` -/

/-- Wrapping `u64` subtraction (release-mode semantics of `a - b` on `u64`). -/
def u64_wrapping_sub (a b : ℕ) : ℕ := (a + 2 ^ 64 - b % 2 ^ 64) % 2 ^ 64

/-- Wrapping `u64` multiplication. -/
def u64_wrapping_mul (a b : ℕ) : ℕ := a * b % 2 ^ 64

/-- The scheduler state from `src/state.rs`. -/
structure State where
  last_claimed_timestamp : ℕ
  claimed_first_time : Bool

/-- `State::should_reclaim` from `src/state.rs`; the source reads the current wall
clock internally, so the embedding takes `now` as an explicit argument:
`!self.claimed_first_time || now - self.last_claimed_timestamp >= compunding_frequency`. -/
def State.should_reclaim (self : State) (now compunding_frequency : ℕ) : Bool :=
  !self.claimed_first_time ||
    decide (compunding_frequency ≤ u64_wrapping_sub now self.last_claimed_timestamp)

/-- `State::next_reclaim_in` from `src/state.rs`:
`(compunding_frequency * 60 * 60) - (now - self.last_claimed_timestamp)`,
all in `u64` arithmetic with no guard. -/
def State.next_reclaim_in (self : State) (now compunding_frequency : ℕ) : ℕ :=
  u64_wrapping_sub (u64_wrapping_mul (u64_wrapping_mul compunding_frequency 60) 60)
    (u64_wrapping_sub now self.last_claimed_timestamp)

/-! ## `src/utils.rs` -/

/-- `mean` from `src/utils.rs`: `None` on the empty slice, otherwise
`Some(sum / len)`. -/
def mean (vec : List ℚ) : Option ℚ :=
  if vec.isEmpty then none
  else some (vec.sum / (vec.length : ℚ))

/-! ## `src/main.rs` and `src/config.rs` -/

/-- The CLI configuration from `src/config.rs` (the fields the cycle logic reads). -/
structure AppConfig where
  base_fee_unam : ℚ
  dry_run : Bool
  one_time : Bool

/-- Transport-level RPC failure (an `Err` from the RPC collaborator). -/
inductive RpcErr
  | transport
deriving DecidableEq

/-- The RPC responses a single cycle of `main` observes, one field per call site
(the balance query is issued twice, before and after the claim submission). -/
structure RpcEnv where
  current_epoch : Except RpcErr ℕ
  pos_inflation : Except RpcErr ℚ
  validators : Except RpcErr (List ℕ)
  commission : ℕ → Except RpcErr ℚ
  bond_amount : ℕ → Except RpcErr ℕ
  native_token : Except RpcErr ℕ
  balance_pre : Except RpcErr ℕ
  balance_post : Except RpcErr ℕ
  claim_result : Except RpcErr Unit
  bond_result : Except RpcErr Unit

/-- Which `.unwrap()` a cycle panicked on. -/
inductive PanicSite
  | rpcUnwrap
  | checkedAdd
  | meanUnwrap
  | optUnwrap
  | rewardsUnwrap
deriving DecidableEq

/-- What `exit_or_continue` does: terminate the process or sleep and loop again. -/
inductive ExitAction
  | exitCode (code : ℕ)
  | sleepThenContinue
deriving DecidableEq

/-- `exit_or_continue` from `src/main.rs`: in one-shot mode exit with code 1 on
error and 0 otherwise; in continuous mode sleep and let the loop continue. -/
def exit_or_continue (one_time with_error : Bool) : ExitAction :=
  if one_time then .exitCode (if with_error then 1 else 0)
  else .sleepThenContinue

/-- How one pass of the `loop` in `main` ends. -/
inductive CycleOutcome
  | panicked (site : PanicSite)
  | dryRunExit
  | idle (act : ExitAction) (reported_hours : ℕ)
  | done (act : ExitAction) (rewards : ℕ)
deriving DecidableEq

/-- `u64::checked_add` (used through `token::Amount::checked_add`). -/
def checked_add (a b : ℕ) : Option ℕ :=
  if a + b < 2 ^ 64 then some (a + b) else none

/-- `u64::checked_sub` (used through `token::Amount::checked_sub`). -/
def checked_sub (a b : ℕ) : Option ℕ :=
  if b ≤ a then some (a - b) else none

/-- The executor tail of `main` (`src/main.rs` lines 125-155): native-token query,
pre-claim balance, claim submission, post-claim balance, `rewards =
balance_post.checked_sub(balance_pre).unwrap()`, then the bond submission and
`exit_or_continue`. -/
def executorPhase (one_time : Bool) (env : RpcEnv) : CycleOutcome :=
  match env.native_token with
  | .error _ => .panicked .rpcUnwrap
  | .ok _ =>
  match env.balance_pre with
  | .error _ => .panicked .rpcUnwrap
  | .ok balance_pre =>
  match env.claim_result with
  | .error _ => .panicked .rpcUnwrap
  | .ok _ =>
  match env.balance_post with
  | .error _ => .panicked .rpcUnwrap
  | .ok balance_post =>
  match checked_sub balance_post balance_pre with
  | none => .panicked .rewardsUnwrap
  | some rewards =>
  match env.bond_result with
  | .error _ => .panicked .rpcUnwrap
  | .ok _ => .done (exit_or_continue one_time false) rewards

/-- One pass of the `loop` in `main` (`src/main.rs` lines 33-156).  The
current wall clock is `now`; `opt` stands for `opt::compute_frequency_opt`
applied to `(amount_bonded, net_apr, base_fee_unam * validators.len())`.
Per-validator commission and bond queries degrade to defaults
(`unwrap_or_default`); every other RPC result is `.unwrap()`ed.  The mean
commission is unwrapped before the bonded amounts are summed, mirroring the
source order.  `amount_to_f64` divides the raw `u64` amount by 10^6 (the native
token's decimal scaling in `to_string_native`). -/
def runCycle (cfg : AppConfig) (s : State) (now : ℕ)
    (opt : ℚ → ℚ → ℚ → Option OptimizationResult) (env : RpcEnv) : CycleOutcome :=
  match env.current_epoch with
  | .error _ => .panicked .rpcUnwrap
  | .ok _current_epoch =>
  match env.pos_inflation with
  | .error _ => .panicked .rpcUnwrap
  | .ok pos_inflation =>
  match env.validators with
  | .error _ => .panicked .rpcUnwrap
  | .ok validators =>
  let commissions := validators.map fun v =>
    match env.commission v with
    | .ok c => c
    | .error _ => 0
  match mean commissions with
  | none => .panicked .meanUnwrap
  | some mean_commissions =>
  let bond_amounts : List ℕ := validators.map fun v =>
    match env.bond_amount v with
    | .ok a => a
    | .error _ => 0
  match bond_amounts.foldl (fun (acc : Option ℕ) (a : ℕ) => acc.bind fun x => checked_add x a) (some 0) with
  | none => .panicked .checkedAdd
  | some bonded_raw =>
  let amount_bonded : ℚ := (bonded_raw : ℚ) / 1000000
  let net_apr := pos_inflation - pos_inflation * mean_commissions
  match opt amount_bonded net_apr (cfg.base_fee_unam * (validators.length : ℚ)) with
  | none => .panicked .optUnwrap
  | some optimization_result =>
  if cfg.dry_run then .dryRunExit
  else if s.should_reclaim now optimization_result.optimal_frequency = false then
    .idle (exit_or_continue cfg.one_time false)
      (s.next_reclaim_in now optimization_result.optimal_frequency / 60 / 60)
  else executorPhase cfg.one_time env

/-- Whether a cycle outcome lets the loop run another cycle (reached only through
the sleeping branch of `exit_or_continue`). -/
def continuesToNextCycle : CycleOutcome → Bool
  | .idle .sleepThenContinue _ => true
  | .done .sleepThenContinue _ => true
  | _ => false

/-! ## Specification-level simulation (for comparison with the source) -/

/-- The unclamped balance sequence: round `i+1` applies
`balance = balance*(1+rate) - fee` to round `i`. -/
def balanceSeq (rate fee principal : ℚ) : ℕ → ℚ
  | 0 => principal
  | i + 1 => balanceSeq rate fee principal i * (1 + rate) - fee

/-- Follows the spec's words (§4.2): `effectiveRate = apr / frequency`; iterate
`floor(frequency * years)` discrete rounds applying `balance =
balance*(1+effectiveRate) - fee`; if balance drops to ≤ 0 at any round,
short-circuit to 0; otherwise the final balance. -/
def simulateBalance (principal apr fee frequency years : ℚ) : ℚ :=
  let rate := apr / frequency
  let rounds := ⌊frequency * years⌋₊
  if ((Finset.Icc 1 rounds).filter fun i => balanceSeq rate fee principal i ≤ 0).Nonempty
  then 0
  else balanceSeq rate fee principal rounds

/-! ## Helper lemmas -/

/-- After at least one round, or from a nonnegative start, the simulated balance
never goes negative: the loop clamps at 0. -/
theorem compoundLoop_nonneg (rate fee : ℚ) :
    ∀ (n : ℕ) (b : ℚ), 0 ≤ b → 0 ≤ compoundLoop rate fee n b := by
  intro n
  induction n with
  | zero => intro b hb; simpa [compoundLoop] using hb
  | succ n ih =>
    intro b _
    rw [compoundLoop]
    split
    · exact le_refl 0
    · next h => exact ih _ (not_le.mp h).le

/-- With a nonnegative per-round multiplier, the loop is antitone in the fee and
monotone in the starting balance. -/
theorem compoundLoop_anti_fee (rate fee1 fee2 : ℚ) (hm : 0 ≤ 1 + rate) (hf : fee1 ≤ fee2) :
    ∀ (n : ℕ) (b1 b2 : ℚ), b2 ≤ b1 →
      compoundLoop rate fee2 n b2 ≤ compoundLoop rate fee1 n b1 := by
  intro n
  induction n with
  | zero => intro b1 b2 hb; simpa [compoundLoop] using hb
  | succ n ih =>
    intro b1 b2 hb
    have hstep : b2 * (1 + rate) - fee2 ≤ b1 * (1 + rate) - fee1 :=
      sub_le_sub (mul_le_mul_of_nonneg_right hb hm) hf
    rw [compoundLoop, compoundLoop]
    by_cases h2 : b2 * (1 + rate) - fee2 ≤ 0
    · rw [if_pos h2]
      by_cases h1 : b1 * (1 + rate) - fee1 ≤ 0
      · rw [if_pos h1]
      · rw [if_neg h1]
        exact compoundLoop_nonneg _ _ _ _ (not_le.mp h1).le
    · rw [if_neg h2, if_neg fun h => h2 (le_trans hstep h)]
      exact ih _ _ hstep

/-- With a nonnegative per-round multiplier, the loop is monotone in the rate
when started from comparable nonnegative balances. -/
theorem compoundLoop_mono_rate (fee r1 r2 : ℚ) (hm : 0 ≤ 1 + r1) (hr : r1 ≤ r2) :
    ∀ (n : ℕ) (b1 b2 : ℚ), b1 ≤ b2 → 0 ≤ b2 →
      compoundLoop r1 fee n b1 ≤ compoundLoop r2 fee n b2 := by
  intro n
  induction n with
  | zero => intro b1 b2 hb _; simpa [compoundLoop] using hb
  | succ n ih =>
    intro b1 b2 hb hb2
    have hstep : b1 * (1 + r1) - fee ≤ b2 * (1 + r2) - fee := by
      have h1 : b1 * (1 + r1) ≤ b2 * (1 + r1) := mul_le_mul_of_nonneg_right hb hm
      have h2 : b2 * (1 + r1) ≤ b2 * (1 + r2) :=
        mul_le_mul_of_nonneg_left (by linarith) hb2
      linarith
    rw [compoundLoop, compoundLoop]
    by_cases h1 : b1 * (1 + r1) - fee ≤ 0
    · rw [if_pos h1]
      by_cases h2 : b2 * (1 + r2) - fee ≤ 0
      · rw [if_pos h2]
      · rw [if_neg h2]
        exact compoundLoop_nonneg _ _ _ _ (not_le.mp h2).le
    · rw [if_neg h1, if_neg fun h => h1 (le_trans hstep h)]
      exact ih _ _ hstep (le_trans (not_le.mp h1).le hstep)

/-- Shifting the start of the unclamped balance sequence by one round. -/
theorem balanceSeq_shift (rate fee p : ℚ) :
    ∀ i, balanceSeq rate fee (p * (1 + rate) - fee) i = balanceSeq rate fee p (i + 1) := by
  intro i
  induction i with
  | zero => simp [balanceSeq]
  | succ i ih =>
    rw [balanceSeq, ih]
    conv_rhs => rw [balanceSeq]

/-- The short-circuiting loop agrees with the declarative description: it
returns 0 exactly when some round in `1..n` drops to `≤ 0`, and the final
unclamped balance otherwise. -/
theorem compoundLoop_eq_spec (rate fee : ℚ) :
    ∀ (n : ℕ) (b : ℚ),
      compoundLoop rate fee n b =
        if ((Finset.Icc 1 n).filter fun i => balanceSeq rate fee b i ≤ 0).Nonempty then 0
        else balanceSeq rate fee b n := by
  intro n
  induction n with
  | zero => intro b; simp [compoundLoop, balanceSeq]
  | succ n ih =>
    intro b
    rw [compoundLoop]
    have hb1 : balanceSeq rate fee b 1 = b * (1 + rate) - fee := by
      rw [balanceSeq, balanceSeq]
    by_cases h : b * (1 + rate) - fee ≤ 0
    · rw [if_pos h]
      have hne : ((Finset.Icc 1 (n + 1)).filter fun i => balanceSeq rate fee b i ≤ 0).Nonempty :=
        ⟨1, Finset.mem_filter.2 ⟨Finset.mem_Icc.2 ⟨le_refl 1, by omega⟩, by rw [hb1]; exact h⟩⟩
      rw [if_pos hne]
    · rw [if_neg h, ih]
      have hs := balanceSeq_shift rate fee b
      have hiff :
          ((Finset.Icc 1 n).filter fun i =>
              balanceSeq rate fee (b * (1 + rate) - fee) i ≤ 0).Nonempty ↔
          ((Finset.Icc 1 (n + 1)).filter fun i => balanceSeq rate fee b i ≤ 0).Nonempty := by
        constructor
        · rintro ⟨i, hi⟩
          rw [Finset.mem_filter, Finset.mem_Icc] at hi
          refine ⟨i + 1, Finset.mem_filter.2 ⟨Finset.mem_Icc.2 ⟨by omega, by omega⟩, ?_⟩⟩
          rw [← hs]; exact hi.2
        · rintro ⟨j, hj⟩
          rw [Finset.mem_filter, Finset.mem_Icc] at hj
          have hjne : j ≠ 1 := by
            intro hj1
            rw [hj1, hb1] at hj
            exact h hj.2
          refine ⟨j - 1, Finset.mem_filter.2 ⟨Finset.mem_Icc.2 ⟨by omega, by omega⟩, ?_⟩⟩
          rw [hs]
          have : j - 1 + 1 = j := by omega
          rw [this]; exact hj.2
      rw [if_congr hiff rfl (hs n)]

/-- `u64` wrapping subtraction computes the exact difference when it does not
underflow. -/
theorem u64_wrapping_sub_of_le {a b : ℕ} (hba : b ≤ a) (ha : a < 2 ^ 64) :
    u64_wrapping_sub a b = a - b := by
  unfold u64_wrapping_sub
  rw [Nat.mod_eq_of_lt (lt_of_le_of_lt hba ha)]
  have h : a + 2 ^ 64 - b = a - b + 2 ^ 64 := by omega
  rw [h, Nat.add_mod_right]
  exact Nat.mod_eq_of_lt (by omega)

/-- `u64` wrapping subtraction wraps around by `2^64` when it underflows. -/
theorem u64_wrapping_sub_of_gt {a b : ℕ} (hab : a < b) (hb : b < 2 ^ 64) :
    u64_wrapping_sub a b = a + 2 ^ 64 - b := by
  unfold u64_wrapping_sub
  rw [Nat.mod_eq_of_lt hb]
  exact Nat.mod_eq_of_lt (by omega)

/-- `u64` wrapping multiplication computes the exact product when it does not
overflow. -/
theorem u64_wrapping_mul_of_lt {a b : ℕ} (h : a * b < 2 ^ 64) :
    u64_wrapping_mul a b = a * b :=
  Nat.mod_eq_of_lt h

/-- The executor tail either panics or reaches the bond and the error-free
`exit_or_continue`. -/
theorem executorPhase_cases (one_time : Bool) (env : RpcEnv) :
    (∃ site, executorPhase one_time env = .panicked site) ∨
    (∃ r, executorPhase one_time env = .done (exit_or_continue one_time false) r) := by
  unfold executorPhase
  repeat' split
  all_goals first
    | exact Or.inl ⟨_, rfl⟩
    | exact Or.inr ⟨_, rfl⟩

/-- Every cycle outcome is a panic, the dry-run exit, or an idle/done outcome
carrying the error-free `exit_or_continue` action. -/
theorem runCycle_cases (cfg : AppConfig) (s : State) (now : ℕ)
    (opt : ℚ → ℚ → ℚ → Option OptimizationResult) (env : RpcEnv) :
    (∃ site, runCycle cfg s now opt env = .panicked site) ∨
    runCycle cfg s now opt env = .dryRunExit ∨
    (∃ h, runCycle cfg s now opt env = .idle (exit_or_continue cfg.one_time false) h) ∨
    (∃ r, runCycle cfg s now opt env = .done (exit_or_continue cfg.one_time false) r) := by
  unfold runCycle
  dsimp only
  repeat' split
  all_goals first
    | exact Or.inl ⟨_, rfl⟩
    | exact Or.inr (Or.inl rfl)
    | exact Or.inr (Or.inr (Or.inl ⟨_, rfl⟩))
    | (rcases executorPhase_cases cfg.one_time env with ⟨site, hq⟩ | ⟨r, hq⟩
       · exact Or.inl ⟨site, hq⟩
       · exact Or.inr (Or.inr (Or.inr ⟨r, hq⟩)))

/-! ## Claim theorems -/

/-- Claim C1 (status: code_bug, evaluation at the failing input).  The spec
requires one converted duration `D = 365*24*3600 / optimalFrequency` to drive
both the readiness comparison and the remaining-wait report.  The code does
neither and is internally inconsistent: with `optimal_frequency = 2` and a
claim recorded at `T = 0`, the converted duration is `15768000` seconds, yet
`should_reclaim` already answers ready at `now = 2` (it compares elapsed
seconds against the raw frequency `2`), while `next_reclaim_in` at `now = 0`
reports `7200 = 2*3600` seconds instead of `15768000 - 0`. -/
theorem c1_scheduler_unit_mismatch :
    (OptimizationResult.mk 0 2).seconds_between_compunding = 15768000 ∧
    ((2 : ℚ) < 15768000) ∧
    State.should_reclaim ⟨0, true⟩ 2 2 = true ∧
    State.should_reclaim ⟨0, true⟩ 0 2 = false ∧
    State.next_reclaim_in ⟨0, true⟩ 0 2 = 7200 ∧
    ((7200 : ℚ) ≠ 15768000 - 0) := by
  refine ⟨?_, by norm_num, by decide, by decide, by decide, by norm_num⟩
  norm_num [OptimizationResult.seconds_between_compunding]

/-- Claim C2 (status: confirmed).  `calculate_compound_balance` computes exactly
the spec's simulation: `effectiveRate = apr / frequency`, `floor(frequency *
years)` discrete rounds of `balance := balance*(1+effectiveRate) - fee`,
returning 0 if the balance ever drops to `≤ 0` during a round and the final
balance otherwise. -/
theorem c2_simulate_refines_spec (principal apr fee frequency time_in_years : ℚ) :
    calculate_compound_balance principal apr fee frequency time_in_years =
      simulateBalance principal apr fee frequency time_in_years :=
  compoundLoop_eq_spec (apr / frequency) fee ⌊frequency * time_in_years⌋₊ principal

/-- Claim C3 (status: confirmed).  The optimizer's cost function returns
`f64::MAX` exactly when the candidate frequency exceeds `8760` or the simulated
one-year balance is non-positive, and the negated simulated balance otherwise. -/
theorem c3_cost_characterization (self : CompoundingOptimization) (frequency : ℚ) :
    (self.cost frequency = f64_MAX ↔
      8760 < frequency ∨
        calculate_compound_balance self.principal self.apr self.fee frequency
          self.time_in_years ≤ 0) ∧
    (frequency ≤ 8760 →
      0 < calculate_compound_balance self.principal self.apr self.fee frequency
            self.time_in_years →
      self.cost frequency =
        -calculate_compound_balance self.principal self.apr self.fee frequency
          self.time_in_years) := by
  have hMAX : (0 : ℚ) < f64_MAX := by
    have h : (2 : ℚ) ^ 971 < 2 ^ 1024 := by
      have := pow_lt_pow_right₀ (a := (2 : ℚ)) (by norm_num) (by omega : 971 < 1024)
      exact this
    unfold f64_MAX
    linarith
  have h8760 : (24 : ℚ) * 365 = 8760 := by norm_num
  unfold CompoundingOptimization.cost
  rw [h8760]
  by_cases h1 : (8760 : ℚ) < frequency
  · rw [if_pos h1]
    exact ⟨⟨fun _ => Or.inl h1, fun _ => rfl⟩, fun hle _ => absurd h1 (not_lt.2 hle)⟩
  · rw [if_neg h1]
    by_cases h2 : calculate_compound_balance self.principal self.apr self.fee frequency
        self.time_in_years ≤ 0
    · rw [if_pos h2]
      exact ⟨⟨fun _ => Or.inr h2, fun _ => rfl⟩, fun _ hpos => absurd h2 (not_le.2 hpos)⟩
    · rw [if_neg h2]
      constructor
      · constructor
        · intro heq
          have := not_le.mp h2
          exfalso; linarith [heq ▸ hMAX]
        · rintro (h | h)
          · exact absurd h h1
          · exact absurd h h2
      · intro _ _; rfl

/-- Witness for C3: at principal 1000, apr 1/10, fee 0, one year, frequency 1
the balance is 1100 and the cost is its negation. -/
theorem c3_cost_characterization_witness :
    CompoundingOptimization.cost ⟨1000, 1/10, 0, 1⟩ 1 = -1100 := by
  have hbal : calculate_compound_balance 1000 (1/10) 0 1 1 = 1100 := by
    norm_num [calculate_compound_balance, compoundLoop]
  have h := (c3_cost_characterization ⟨1000, 1/10, 0, 1⟩ 1).2 (by norm_num)
    (by rw [hbal]; norm_num)
  rw [h, hbal]

/-- Claim C4 (status: corrected, counterexample).  With a per-round multiplier
below zero (`apr/frequency < -1`) and a negative fee, a larger fee can yield a
strictly larger simulated balance: at principal 10, apr −6, frequency 2, one
year, fees −35 ≤ −25 give balances 5 < 15, refuting "non-increasing in fee"
as universally stated. -/
theorem c4_fee_monotonicity_counterexample :
    (-35 : ℚ) ≤ -25 ∧
    calculate_compound_balance 10 (-6) (-35) 2 1 <
      calculate_compound_balance 10 (-6) (-25) 2 1 := by
  constructor
  · norm_num
  · norm_num [calculate_compound_balance, compoundLoop]

/-- Claim C4 as amended (status: corrected).  Under the nonnegative-multiplier
hypothesis `0 ≤ 1 + apr/frequency`, `calculate_compound_balance` is
non-increasing in the fee; and additionally assuming a nonnegative principal
and a positive frequency, it is non-decreasing in the apr. -/
theorem c4_monotonicity_amended (principal apr apr2 fee fee2 frequency time_in_years : ℚ)
    (hm : 0 ≤ 1 + apr / frequency) :
    (fee ≤ fee2 →
      calculate_compound_balance principal apr fee2 frequency time_in_years ≤
        calculate_compound_balance principal apr fee frequency time_in_years) ∧
    (0 ≤ principal → 0 < frequency → apr ≤ apr2 →
      calculate_compound_balance principal apr fee frequency time_in_years ≤
        calculate_compound_balance principal apr2 fee frequency time_in_years) := by
  constructor
  · intro hf
    exact compoundLoop_anti_fee (apr / frequency) fee fee2 hm hf _ principal principal le_rfl
  · intro hp hfreq ha
    have hr : apr / frequency ≤ apr2 / frequency := (div_le_div_iff_of_pos_right hfreq).2 ha
    exact compoundLoop_mono_rate fee (apr / frequency) (apr2 / frequency) hm hr _
      principal principal le_rfl hp

/-- Witness for the amended C4 at principal 1000, apr 1/10 ≤ 1/5, fees 1 ≤ 2,
frequency 1, one year. -/
theorem c4_monotonicity_amended_witness :
    calculate_compound_balance 1000 (1/10) 2 1 1 ≤
      calculate_compound_balance 1000 (1/10) 1 1 1 ∧
    calculate_compound_balance 1000 (1/10) 1 1 1 ≤
      calculate_compound_balance 1000 (1/5) 1 1 1 := by
  constructor
  · exact (c4_monotonicity_amended 1000 (1/10) (1/5) 1 2 1 1 (by norm_num)).1 (by norm_num)
  · exact (c4_monotonicity_amended 1000 (1/10) (1/5) 1 2 1 1 (by norm_num)).2
      (by norm_num) (by norm_num) (by norm_num)

/-- Claim C8 (status: confirmed).  A freshly initialized scheduler state
(`claimed_first_time = false`) answers ready for every wall-clock time and
every recommended interval, including zero. -/
theorem c8_fresh_state_always_ready (last now freq : ℕ) :
    State.should_reclaim ⟨last, false⟩ now freq = true := by
  simp [State.should_reclaim]

/-- Claim C9 (status: confirmed).  When `frequency * years < 1` — in particular
at `frequency = 0` — the simulation performs zero rounds and returns the
principal unchanged, for every apr and fee; the division `apr/frequency` is
never applied to the balance. -/
theorem c9_zero_rounds_returns_principal (principal apr fee frequency time_in_years : ℚ)
    (h : frequency * time_in_years < 1) :
    calculate_compound_balance principal apr fee frequency time_in_years = principal := by
  unfold calculate_compound_balance
  rw [Nat.floor_eq_zero.2 h]
  rfl

/-- Witness for C9 at frequency 0. -/
theorem c9_zero_rounds_returns_principal_witness :
    calculate_compound_balance 100 5 7 0 1 = 100 :=
  c9_zero_rounds_returns_principal 100 5 7 0 1 (by norm_num)

/-- Claim C10 (status: confirmed).  `next_reclaim_in` subtracts the elapsed time
from `frequency * 3600` in unguarded `u64` arithmetic.  Under the caller's
precondition — `should_reclaim` just returned `false`, so the state has claimed
once and the elapsed time is below `frequency` — the elapsed time is below
`frequency * 3600` and the subtraction is exact.  Outside it, when the elapsed
time exceeds `frequency * 3600`, the mathematical difference is negative and
the `u64` subtraction wraps around by `2^64`. -/
theorem c10_next_reclaim_underflow (s : State) (now freq : ℕ)
    (hl : s.last_claimed_timestamp ≤ now) (hn : now < 2 ^ 64)
    (hfreq : freq * 3600 < 2 ^ 64) :
    (s.should_reclaim now freq = false →
      now - s.last_claimed_timestamp < freq * 3600 ∧
      s.next_reclaim_in now freq = freq * 3600 - (now - s.last_claimed_timestamp)) ∧
    (freq * 3600 < now - s.last_claimed_timestamp →
      s.next_reclaim_in now freq = freq * 3600 + 2 ^ 64 - (now - s.last_claimed_timestamp) ∧
      ((freq * 3600 : ℤ) - ((now : ℤ) - (s.last_claimed_timestamp : ℤ)) < 0)) := by
  have helapsed : u64_wrapping_sub now s.last_claimed_timestamp =
      now - s.last_claimed_timestamp := u64_wrapping_sub_of_le hl hn
  have h60 : freq * 60 < 2 ^ 64 :=
    lt_of_le_of_lt (Nat.mul_le_mul_left freq (by norm_num)) hfreq
  have hmul : u64_wrapping_mul (u64_wrapping_mul freq 60) 60 = freq * 3600 := by
    rw [u64_wrapping_mul_of_lt h60, u64_wrapping_mul_of_lt (by omega : freq * 60 * 60 < 2 ^ 64)]
    omega
  constructor
  · intro hsr
    simp only [State.should_reclaim, helapsed, Bool.or_eq_false_iff,
      Bool.not_eq_false', decide_eq_false_iff_not, not_le] at hsr
    have hlt : now - s.last_claimed_timestamp < freq * 3600 :=
      lt_of_lt_of_le hsr.2 (Nat.le_mul_of_pos_right freq (by norm_num))
    refine ⟨hlt, ?_⟩
    unfold State.next_reclaim_in
    rw [hmul, helapsed, u64_wrapping_sub_of_le hlt.le hfreq]
  · intro hgt
    have helbound : now - s.last_claimed_timestamp < 2 ^ 64 := by omega
    constructor
    · unfold State.next_reclaim_in
      rw [hmul, helapsed, u64_wrapping_sub_of_gt hgt helbound]
    · omega

/-- Witness for C10: the exact branch at a state claimed at 100 queried at 150
with frequency 100, and the wrapped branch at a state claimed at 0 queried at
10^6 with frequency 1. -/
theorem c10_next_reclaim_underflow_witness :
    State.next_reclaim_in ⟨100, true⟩ 150 100 = 359950 ∧
    State.next_reclaim_in ⟨0, true⟩ 1000000 1 = 3600 + 2 ^ 64 - 1000000 := by
  constructor
  · have h := ((c10_next_reclaim_underflow ⟨100, true⟩ 150 100 (by norm_num)
      (by norm_num) (by norm_num)).1 (by decide)).2
    simpa using h
  · have h := ((c10_next_reclaim_underflow ⟨0, true⟩ 1000000 1 (by norm_num)
      (by norm_num) (by norm_num)).2 (by norm_num)).1
    simpa using h

/-- Claim C5 (status: confirmed).  In the executor sequence, whenever the
balance observed after the claim submission is strictly below the one observed
before it, `checked_sub` yields `None` and the `.unwrap()` panics: the bond
submission is never consulted (the outcome is the same for every bond result),
the violation surfaces as a hard error, and the negative reward is never
clamped to a zero-amount bond. -/
theorem c5_negative_reward_aborts (one_time : Bool) (env : RpcEnv) (tok pre post : ℕ)
    (hn : env.native_token = .ok tok)
    (hpre : env.balance_pre = .ok pre)
    (hc : env.claim_result = .ok ())
    (hpost : env.balance_post = .ok post)
    (hlt : post < pre) :
    (∀ b, executorPhase one_time { env with bond_result := b } = .panicked .rewardsUnwrap) ∧
    (∀ b act r, executorPhase one_time { env with bond_result := b } ≠ .done act r) := by
  have hsub : checked_sub post pre = none := by
    unfold checked_sub
    rw [if_neg (by omega)]
  have key : ∀ b, executorPhase one_time { env with bond_result := b } =
      .panicked .rewardsUnwrap := by
    intro b
    unfold executorPhase
    simp only [hn, hpre, hc, hpost, hsub]
  refine ⟨key, fun b act r h => ?_⟩
  rw [key b] at h
  exact CycleOutcome.noConfusion h

/-- Witness for C5: an executor observation of 10 before and 5 after the claim
panics at the rewards unwrap. -/
theorem c5_negative_reward_aborts_witness :
    executorPhase false
      { current_epoch := .ok 1, pos_inflation := .ok 0, validators := .ok [0],
        commission := fun _ => .ok 0, bond_amount := fun _ => .ok 0,
        native_token := .ok 7, balance_pre := .ok 10, balance_post := .ok 5,
        claim_result := .ok (), bond_result := .ok () } = .panicked .rewardsUnwrap :=
  (c5_negative_reward_aborts false
      { current_epoch := .ok 1, pos_inflation := .ok 0, validators := .ok [0],
        commission := fun _ => .ok 0, bond_amount := fun _ => .ok 0,
        native_token := .ok 7, balance_pre := .ok 10, balance_post := .ok 5,
        claim_result := .ok (), bond_result := .ok () } 7 10 5
      rfl rfl rfl rfl (by norm_num)).1 (.ok ())

/-- Claim C6 (status: confirmed).  `mean` returns `None` on the empty slice and
`Some a` on `[a]`; and a cycle whose validator set is empty panics at the mean
unwrap, for every optimizer — so the optimizer is never invoked and the absent
mean is never defaulted to zero. -/
theorem c6_mean_absence :
    mean [] = none ∧
    (∀ a : ℚ, mean [a] = some a) ∧
    (∀ (cfg : AppConfig) (s : State) (now : ℕ)
        (opt : ℚ → ℚ → ℚ → Option OptimizationResult) (env : RpcEnv) (ep : ℕ) (infl : ℚ),
      env.current_epoch = .ok ep → env.pos_inflation = .ok infl →
      env.validators = .ok [] →
      runCycle cfg s now opt env = .panicked .meanUnwrap) := by
  refine ⟨rfl, ?_, ?_⟩
  · intro a
    simp [mean]
  · intro cfg s now opt env ep infl he hi hv
    unfold runCycle
    simp only [he, hi, hv, List.map_nil]
    simp [mean]

/-- Witness for C6: a concrete cycle with an empty validator set panics at the
mean unwrap. -/
theorem c6_mean_absence_witness :
    runCycle ⟨0, false, false⟩ ⟨0, false⟩ 0 (fun _ _ _ => none)
      { current_epoch := .ok 1, pos_inflation := .ok 0, validators := .ok [],
        commission := fun _ => .ok 0, bond_amount := fun _ => .ok 0,
        native_token := .ok 0, balance_pre := .ok 0, balance_post := .ok 0,
        claim_result := .ok (), bond_result := .ok () } = .panicked .meanUnwrap :=
  c6_mean_absence.2.2 ⟨0, false, false⟩ ⟨0, false⟩ 0 (fun _ _ _ => none)
    { current_epoch := .ok 1, pos_inflation := .ok 0, validators := .ok [],
      commission := fun _ => .ok 0, bond_amount := fun _ => .ok 0,
      native_token := .ok 0, balance_pre := .ok 0, balance_post := .ok 0,
      claim_result := .ok (), bond_result := .ok () } 1 0 rfl rfl rfl

/-- Claim C7 (status: corrected, counterexample).  In continuous mode
(`one_time = false`), a failing RPC call does not let the loop proceed to the
next cycle: the cycle panics, terminating the process.  Here the epoch query
fails with a transport error and the outcome is a panic, not a continuation. -/
theorem c7_transport_error_counterexample :
    runCycle ⟨0, false, false⟩ ⟨0, false⟩ 0 (fun _ _ _ => none)
      { current_epoch := .error .transport, pos_inflation := .ok 0, validators := .ok [],
        commission := fun _ => .ok 0, bond_amount := fun _ => .ok 0,
        native_token := .ok 0, balance_pre := .ok 0, balance_post := .ok 0,
        claim_result := .ok (), bond_result := .ok () } = .panicked .rpcUnwrap ∧
    continuesToNextCycle (runCycle ⟨0, false, false⟩ ⟨0, false⟩ 0 (fun _ _ _ => none)
      { current_epoch := .error .transport, pos_inflation := .ok 0, validators := .ok [],
        commission := fun _ => .ok 0, bond_amount := fun _ => .ok 0,
        native_token := .ok 0, balance_pre := .ok 0, balance_post := .ok 0,
        claim_result := .ok (), bond_result := .ok () }) = false :=
  ⟨rfl, rfl⟩

/-- Claim C7 as amended (status: corrected).  When one of the directly
unwrapped leading RPC calls of a cycle fails — the epoch, inflation-rate or
validator-set query — the cycle panics in both modes: the loop never proceeds
to the next cycle.  The error branch of `exit_or_continue` (exit code 1 in
one-shot mode, sleep in continuous mode) exists, but no cycle outcome ever
carries exit code 1, because `main` only invokes `exit_or_continue` with
`with_error = false`. -/
theorem c7_transport_error_amended (cfg : AppConfig) (s : State) (now : ℕ)
    (opt : ℚ → ℚ → ℚ → Option OptimizationResult) (env : RpcEnv) :
    ((∃ e, env.current_epoch = .error e) ∨ (∃ e, env.pos_inflation = .error e) ∨
        (∃ e, env.validators = .error e) →
      runCycle cfg s now opt env = .panicked .rpcUnwrap ∧
      continuesToNextCycle (runCycle cfg s now opt env) = false) ∧
    exit_or_continue true true = .exitCode 1 ∧
    exit_or_continue false true = .sleepThenContinue ∧
    (∀ h r act, runCycle cfg s now opt env ≠ .idle (.exitCode 1) h ∧
      runCycle cfg s now opt env ≠ .done (.exitCode 1) r ∧
      executorPhase cfg.one_time env ≠ .done (.exitCode 1) act) := by
  refine ⟨?_, rfl, rfl, ?_⟩
  · rintro (⟨e, he⟩ | ⟨e, he⟩ | ⟨e, he⟩)
    · unfold runCycle
      rw [he]
      exact ⟨rfl, rfl⟩
    · unfold runCycle
      cases h1 : env.current_epoch with
      | error _ => exact ⟨rfl, rfl⟩
      | ok _ =>
        rw [he]
        exact ⟨rfl, rfl⟩
    · unfold runCycle
      cases h1 : env.current_epoch with
      | error _ => exact ⟨rfl, rfl⟩
      | ok _ =>
        cases h2 : env.pos_inflation with
        | error _ => exact ⟨rfl, rfl⟩
        | ok _ =>
          rw [he]
          exact ⟨rfl, rfl⟩
  · intro h r act
    have hexec : ∀ b : Bool, exit_or_continue b false ≠ .exitCode 1 := by
      intro b
      cases b <;> simp [exit_or_continue]
    have hexecutor : ∀ y, executorPhase cfg.one_time env ≠ .done (.exitCode 1) y := by
      intro y hcontra
      rcases executorPhase_cases cfg.one_time env with ⟨site, hq⟩ | ⟨rr, hq⟩
      · rw [hq] at hcontra
        exact CycleOutcome.noConfusion hcontra
      · rw [hq] at hcontra
        injection hcontra with h1 _
        exact hexec cfg.one_time h1
    refine ⟨?_, ?_, hexecutor act⟩
    · intro hcontra
      rcases runCycle_cases cfg s now opt env with ⟨site, hq⟩ | hq | ⟨hh, hq⟩ | ⟨rr, hq⟩ <;>
        rw [hq] at hcontra
      · exact CycleOutcome.noConfusion hcontra
      · exact CycleOutcome.noConfusion hcontra
      · injection hcontra with h1 _
        exact hexec cfg.one_time h1
      · exact CycleOutcome.noConfusion hcontra
    · intro hcontra
      rcases runCycle_cases cfg s now opt env with ⟨site, hq⟩ | hq | ⟨hh, hq⟩ | ⟨rr, hq⟩ <;>
        rw [hq] at hcontra
      · exact CycleOutcome.noConfusion hcontra
      · exact CycleOutcome.noConfusion hcontra
      · exact CycleOutcome.noConfusion hcontra
      · injection hcontra with h1 _
        exact hexec cfg.one_time h1

/-- Witness for the amended C7: a failing inflation query panics a continuous-
mode cycle. -/
theorem c7_transport_error_amended_witness :
    runCycle ⟨0, false, false⟩ ⟨0, false⟩ 0 (fun _ _ _ => none)
      { current_epoch := .ok 1, pos_inflation := .error .transport, validators := .ok [],
        commission := fun _ => .ok 0, bond_amount := fun _ => .ok 0,
        native_token := .ok 0, balance_pre := .ok 0, balance_post := .ok 0,
        claim_result := .ok (), bond_result := .ok () } = .panicked .rpcUnwrap :=
  ((c7_transport_error_amended ⟨0, false, false⟩ ⟨0, false⟩ 0 (fun _ _ _ => none)
      { current_epoch := .ok 1, pos_inflation := .error .transport, validators := .ok [],
        commission := fun _ => .ok 0, bond_amount := fun _ => .ok 0,
        native_token := .ok 0, balance_pre := .ok 0, balance_post := .ok 0,
        claim_result := .ok (), bond_result := .ok () }).1
    (Or.inr (Or.inl ⟨.transport, rfl⟩))).1

end NamadaAC
